import Mathlib

/-!
Verification of the SDS011/SDS021 particulate-matter sensor app
(packet decoder, command encoder, reading aggregator, connection lifecycle).

The definitions below are a shallow embedding of the TypeScript source:
* `src/utils/sensorUtils.ts` (checksum, PM extraction, command encoding),
* `src/hooks/useSensorData.ts` (decode pipeline and reading window),
* `src/hooks/useUsbSerial.ts` (receive buffer, liveness checks, attach debounce).

Bytes are modelled as `ℕ` (values 0-255 in practice), JS numbers arising from
the PM formulas as `ℚ` (the source only ever divides by 10 and compares, so
exact rational arithmetic is the intended semantics of those formulas).
Fallible operations return `Option`.
-/

/-- Decimal digits of `n` (most significant first), `fuel` bounds recursion depth.
Models the character sequence of JS `num.toString()` for a nonzero number. -/
def decDigitsAux : ℕ → ℕ → List ℕ
  | 0, _ => []
  | fuel + 1, n => if n = 0 then [] else decDigitsAux fuel (n / 10) ++ [n % 10]

/-- Decimal digit list of a number as printed by JS `num.toString()`:
`0` prints as the single digit `0`. -/
def decDigits (n : ℕ) : List ℕ :=
  if n = 0 then [0] else decDigitsAux n n

/-- Split a list into chunks of two (last chunk may be a singleton).
Models the JS regex match `/.{1,2}/g` on a digit string; an empty string
yields no chunks (the source maps `null` to `[]`). -/
def chunks2 : List ℕ → List (List ℕ)
  | [] => []
  | [a] => [[a]]
  | a :: b :: rest => [a, b] :: chunks2 rest

/-- Value of `parseInt(chunk, 16)` for a one- or two-character digit chunk
(the chunks here only ever hold decimal digits, which are valid hex digits). -/
def hexPairVal : List ℕ → ℕ
  | [a] => a
  | [a, b] => a * 16 + b
  | _ => 0

/-- `calculateChecksum` from `src/utils/sensorUtils.ts`:
sum of bytes 2-7, masked with `0xFF` (= mod 256). -/
def calculateChecksum (data : List ℕ) : ℕ :=
  (data.getD 2 0 + data.getD 3 0 + data.getD 4 0 + data.getD 5 0 +
    data.getD 6 0 + data.getD 7 0) % 256

/-- `convertModifiedFormat` from `src/utils/sensorUtils.ts`: requires a 20-byte
buffer with the start markers `0A 0A` or the end markers `0A 0B`; on success
builds a 10-byte standard buffer `0xAA, bytes at even offsets 2..16, 0xAB`. -/
def convertModifiedFormat (b : List ℕ) : Option (List ℕ) :=
  if b.length = 20 then
    if (b.getD 0 0 = 0x0A ∧ b.getD 1 0 = 0x0A) ∨ (b.getD 18 0 = 0x0A ∧ b.getD 19 0 = 0x0B) then
      let standardBuffer : List ℕ :=
        0xAA :: [b.getD 2 0, b.getD 4 0, b.getD 6 0, b.getD 8 0,
                 b.getD 10 0, b.getD 12 0, b.getD 14 0, b.getD 16 0] ++ [0xAB]
      if standardBuffer.length = 10 then some standardBuffer else none
    else none
  else none

/-- `extractPMValuesFromModifiedFormat` from `src/utils/sensorUtils.ts`:
the cascade of extraction hypotheses for the 20-byte modified format. -/
def extractPMValuesFromModifiedFormat (b : List ℕ) : Option (ℚ × ℚ) :=
  if b.length = 20 then
    let d25 : ℚ := (b.getD 2 0 : ℚ)
    let d10 : ℚ := (b.getD 4 0 : ℚ)
    if 0 ≤ d25 ∧ d25 ≤ 999 ∧ 0 ≤ d10 ∧ d10 ≤ 999 then some (d25, d10)
    else
      let t25 : ℚ := (b.getD 2 0 : ℚ) / 10
      let t10 : ℚ := (b.getD 4 0 : ℚ) / 10
      if 0 ≤ t25 ∧ t25 ≤ 999 / 10 ∧ 0 ≤ t10 ∧ t10 ≤ 999 / 10 then some (t25, t10)
      else
        let a25 : ℚ := (b.getD 8 0 : ℚ)
        let a10 : ℚ := (b.getD 12 0 : ℚ)
        if 0 ≤ a25 ∧ a25 ≤ 999 ∧ 0 ≤ a10 ∧ a10 ≤ 999 then some (a25, a10)
        else
          let h25 : ℚ := ((b.getD 3 0 : ℚ) * 256 + (b.getD 2 0 : ℚ)) / 10
          let h10 : ℚ := ((b.getD 5 0 : ℚ) * 256 + (b.getD 4 0 : ℚ)) / 10
          if 0 ≤ h25 ∧ h25 < 1000 ∧ 0 ≤ h10 ∧ h10 < 1000 then some (h25, h10)
          else none
  else none

/-- `extractPMValues` from `src/utils/sensorUtils.ts`. In source order:
first the direct modified-format extraction (20 bytes starting `0A 0A`),
then the standard 10-byte `AA .. AB` format with the little-endian
16-bit-over-10 formula and the `[0, 1000]` guard (the source rejects only
values strictly above 1000), finally the conversion fallback for 20-byte
buffers. -/
def extractPMValues (b : List ℕ) : Option (ℚ × ℚ) :=
  match (if b.length = 20 ∧ b.getD 0 0 = 0x0A ∧ b.getD 1 0 = 0x0A
         then extractPMValuesFromModifiedFormat b else none) with
  | some v => some v
  | none =>
    if b.length = 10 ∧ b.getD 0 0 = 0xAA ∧ b.getD 9 0 = 0xAB then
      let pm25 : ℚ := ((b.getD 3 0 : ℚ) * 256 + (b.getD 2 0 : ℚ)) / 10
      let pm10 : ℚ := ((b.getD 5 0 : ℚ) * 256 + (b.getD 4 0 : ℚ)) / 10
      if pm25 < 0 ∨ pm25 > 1000 ∨ pm10 < 0 ∨ pm10 > 1000 then none
      else some (pm25, pm10)
    else
      if b.length = 20 then
        match convertModifiedFormat b with
        | some conv =>
          let pm25 : ℚ := ((conv.getD 3 0 : ℚ) * 256 + (conv.getD 2 0 : ℚ)) / 10
          let pm10 : ℚ := ((conv.getD 5 0 : ℚ) * 256 + (conv.getD 4 0 : ℚ)) / 10
          if 0 ≤ pm25 ∧ pm25 < 1000 ∧ 0 ≤ pm10 ∧ pm10 < 1000 then some (pm25, pm10)
          else none
        | none => none
      else none

/-- The `switch (command)` of `generateCommandBytes`: command type and value
bytes for `wake`, `read`, `sleep`; anything else defaults to the wake pair. -/
def cmdPair (command : String) : ℕ × ℕ :=
  if command = "wake" then (0x06, 0x01)
  else if command = "read" then (0x04, 0x00)
  else if command = "sleep" then (0x06, 0x00)
  else (0x06, 0x01)

/-- `generateCommandBytes` from `src/utils/sensorUtils.ts`: 20-byte frame
`AA B4 type val 0*12 FF FF checksum AB`, checksum computed by
`calculateChecksum` over the array after the type/value bytes are set. -/
def generateCommandBytes (command : String) : List ℕ :=
  let p := cmdPair command
  let cmdArray : List ℕ :=
    (([0xAA, 0xB4, 0x00, 0x00,
       0x00, 0x00, 0x00, 0x00, 0x00, 0x00, 0x00, 0x00, 0x00, 0x00, 0x00, 0x00,
       0xFF, 0xFF, 0x00, 0xAB].set 2 p.1).set 3 p.2)
  cmdArray.set 18 (calculateChecksum cmdArray)

/-- The PM formula value is never negative (bytes are naturals). -/
lemma pm_formula_nonneg (x y : ℕ) : (0 : ℚ) ≤ ((x : ℚ) * 256 + (y : ℚ)) / 10 := by
  positivity

/-- Bridge between the rational guard of the source and the raw 16-bit value. -/
lemma pm_formula_gt_1000 (x y : ℕ) :
    ((1000 : ℚ) < ((x : ℚ) * 256 + (y : ℚ)) / 10) ↔ 10000 < x * 256 + y := by
  rw [lt_div_iff₀ (by norm_num : (0 : ℚ) < 10)]
  constructor
  · intro h
    have hc : ((10000 : ℕ) : ℚ) < ((x * 256 + y : ℕ) : ℚ) := by push_cast; linarith
    exact_mod_cast hc
  · intro h
    have hc : ((10000 : ℕ) : ℚ) < ((x * 256 + y : ℕ) : ℚ) := by exact_mod_cast h
    push_cast at hc
    linarith

/-- Same bridge for the non-strict bound. -/
lemma pm_formula_le_1000 (x y : ℕ) :
    (((x : ℚ) * 256 + (y : ℚ)) / 10 ≤ 1000) ↔ x * 256 + y ≤ 10000 := by
  rw [← not_lt, pm_formula_gt_1000, not_lt]

/-- Characterization of `extractPMValues` on a 10-byte standard frame
`AA b1 .. b8 AB`: the modified branch never applies, the values are the
little-endian 16-bit-over-10 formulas, and the guard accepts exactly the
raw values up to 10000 (that is, PM values up to and including 1000.0). -/
lemma extractPMValues_std (b1 b2 b3 b4 b5 b6 b7 b8 : ℕ) :
    extractPMValues [0xAA, b1, b2, b3, b4, b5, b6, b7, b8, 0xAB] =
      if b3 * 256 + b2 ≤ 10000 ∧ b5 * 256 + b4 ≤ 10000 then
        some (((b3 : ℚ) * 256 + (b2 : ℚ)) / 10, ((b5 : ℚ) * 256 + (b4 : ℚ)) / 10)
      else none := by
  have n1 := not_lt.mpr (pm_formula_nonneg b3 b2)
  have n2 := not_lt.mpr (pm_formula_nonneg b5 b4)
  have hiff : (((b3 : ℚ) * 256 + (b2 : ℚ)) / 10 < 0 ∨
      1000 < ((b3 : ℚ) * 256 + (b2 : ℚ)) / 10 ∨
      ((b5 : ℚ) * 256 + (b4 : ℚ)) / 10 < 0 ∨
      1000 < ((b5 : ℚ) * 256 + (b4 : ℚ)) / 10) ↔
      ¬ (b3 * 256 + b2 ≤ 10000 ∧ b5 * 256 + b4 ≤ 10000) := by
    simp only [pm_formula_gt_1000]
    simp only [n1, false_or, n2]
    omega
  simp only [extractPMValues]
  norm_num
  by_cases hB : b3 * 256 + b2 ≤ 10000 ∧ b5 * 256 + b4 ≤ 10000
  · simp [hiff, hB]
  · simp [hiff, hB]

/-- C1: For every command string, `generateCommandBytes` returns a 20-byte array
with byte 0 = 0xAA, byte 1 = 0xB4, bytes 4-15 = 0x00, bytes 16-17 = 0xFF 0xFF,
byte 19 = 0xAB; bytes 2-3 are (0x06,0x01) for wake, (0x06,0x00) for sleep,
(0x04,0x00) for read, and (0x06,0x01) for any unrecognized command; and byte 18
equals the sum of bytes 2 through 7 modulo 256. -/
theorem generateCommandBytes_layout (command : String) :
    generateCommandBytes command =
      [0xAA, 0xB4, (cmdPair command).1, (cmdPair command).2,
       0, 0, 0, 0, 0, 0, 0, 0, 0, 0, 0, 0,
       0xFF, 0xFF, ((cmdPair command).1 + (cmdPair command).2) % 256, 0xAB] ∧
    (generateCommandBytes command).getD 18 0 =
      ((generateCommandBytes command).getD 2 0 + (generateCommandBytes command).getD 3 0 +
       (generateCommandBytes command).getD 4 0 + (generateCommandBytes command).getD 5 0 +
       (generateCommandBytes command).getD 6 0 + (generateCommandBytes command).getD 7 0) % 256 ∧
    cmdPair "wake" = (0x06, 0x01) ∧ cmdPair "sleep" = (0x06, 0x00) ∧
    cmdPair "read" = (0x04, 0x00) ∧
    (command ≠ "wake" → command ≠ "sleep" → command ≠ "read" →
      cmdPair command = (0x06, 0x01)) := by
  refine ⟨rfl, rfl, by decide, by decide, by decide, ?_⟩
  intro h1 h2 h3
  simp [cmdPair, h1, h2, h3]

/-- Witness for C1 at the unrecognized command string `"noop"`:
it gets wake's byte pair and checksum 7. -/
theorem generateCommandBytes_layout_witness :
    generateCommandBytes "noop" =
      [0xAA, 0xB4, 6, 1, 0, 0, 0, 0, 0, 0, 0, 0, 0, 0, 0, 0, 0xFF, 0xFF, 7, 0xAB] := by
  have h := (generateCommandBytes_layout "noop").1
  simpa [cmdPair] using h

/-- C2 counterexample: the frame encoding PM2.5 = exactly 1000.0 (raw bytes
`0x27 0x10` little-endian = 10000) is accepted by `extractPMValues`, although
1000.0 does not lie in the half-open interval [0, 1000) the claim states. -/
theorem extractPMValues_accepts_exactly_1000 :
    extractPMValues [0xAA, 0x00, 0x10, 0x27, 0x00, 0x00, 0x00, 0x00, 0x00, 0xAB] =
      some (1000, 0) ∧ ¬ ((1000 : ℚ) < 1000) := by
  constructor
  · rw [extractPMValues_std]
    norm_num
  · norm_num

/-- C2 (amended): for every 10-byte buffer with byte 0 = 0xAA and byte 9 = 0xAB,
the decoded PM2.5 and PM10 values (little-endian 16-bit over 10) are returned
iff both lie in the closed interval [0, 1000]: exactly 1000.0 is accepted and
only values strictly above 1000.0 are rejected (for natural byte values the
lower bound 0 always holds). -/
theorem extractPMValues_standard_guard_closed (b1 b2 b3 b4 b5 b6 b7 b8 : ℕ) :
    extractPMValues [0xAA, b1, b2, b3, b4, b5, b6, b7, b8, 0xAB] =
      if ((b3 : ℚ) * 256 + (b2 : ℚ)) / 10 ≤ 1000 ∧ ((b5 : ℚ) * 256 + (b4 : ℚ)) / 10 ≤ 1000 then
        some (((b3 : ℚ) * 256 + (b2 : ℚ)) / 10, ((b5 : ℚ) * 256 + (b4 : ℚ)) / 10)
      else none := by
  rw [extractPMValues_std]
  exact if_congr (by rw [pm_formula_le_1000, pm_formula_le_1000]) rfl rfl

/-- C4: decoding the exact buffer `AA 00 2C 01 64 00 00 00 00 AB` yields
PM2.5 = 30.0 and PM10 = 10.0; the buffer is a 10-byte standard frame and the
modified-format extractor does not apply to it, so the values come from the
standard-format branch of `extractPMValues`. -/
theorem extractPMValues_scenario_standard :
    extractPMValues [0xAA, 0x00, 0x2C, 0x01, 0x64, 0x00, 0x00, 0x00, 0x00, 0xAB] =
      some (30, 10) ∧
    extractPMValuesFromModifiedFormat
      [0xAA, 0x00, 0x2C, 0x01, 0x64, 0x00, 0x00, 0x00, 0x00, 0xAB] = none ∧
    [0xAA, 0x00, 0x2C, 0x01, 0x64, 0x00, 0x00, 0x00, 0x00, 0xAB].length = 10 := by
  refine ⟨?_, ?_, rfl⟩
  · rw [extractPMValues_std]
    norm_num
  · simp [extractPMValuesFromModifiedFormat]

/-- C9: inbound standard-frame decoding never validates the checksum byte:
for every 10-byte buffer `AA .. AB` with in-range PM values, `extractPMValues`
returns those values for every value of byte 8, and the result does not depend
on byte 8 at all. -/
theorem extractPMValues_ignores_checksum (b1 b2 b3 b4 b5 b6 b7 c c' : ℕ)
    (h25 : b3 * 256 + b2 ≤ 10000) (h10 : b5 * 256 + b4 ≤ 10000) :
    extractPMValues [0xAA, b1, b2, b3, b4, b5, b6, b7, c, 0xAB] =
      some (((b3 : ℚ) * 256 + (b2 : ℚ)) / 10, ((b5 : ℚ) * 256 + (b4 : ℚ)) / 10) ∧
    extractPMValues [0xAA, b1, b2, b3, b4, b5, b6, b7, c, 0xAB] =
      extractPMValues [0xAA, b1, b2, b3, b4, b5, b6, b7, c', 0xAB] := by
  constructor
  · rw [extractPMValues_std, if_pos ⟨h25, h10⟩]
  · rw [extractPMValues_std, extractPMValues_std]

/-- Witness for C9: the scenario frame with checksum byte 0x55 (the correct
checksum would be 0x91) still decodes to (30.0, 10.0), and changing the
checksum byte to 0x99 changes nothing. -/
theorem extractPMValues_ignores_checksum_witness :
    extractPMValues [0xAA, 0, 44, 1, 100, 0, 0, 0, 0x55, 0xAB] = some (30, 10) ∧
    extractPMValues [0xAA, 0, 44, 1, 100, 0, 0, 0, 0x55, 0xAB] =
      extractPMValues [0xAA, 0, 44, 1, 100, 0, 0, 0, 0x99, 0xAB] := by
  have h := extractPMValues_ignores_checksum 0 44 1 100 0 0 0 0x55 0x99
    (by norm_num) (by norm_num)
  refine ⟨?_, h.2⟩
  rw [h.1]
  norm_num

/-- Which wire format a pipeline reading was tagged with (`setPacketType`). -/
inductive PType where
  | standard
  | modified
deriving DecidableEq, Repr

/-- The "cleaned bytes" of the buffer preview in `useSensorData.ts`:
the first (up to) 20 bytes are printed as space-padded decimal numbers,
all spaces are removed (concatenating the decimal digit strings), the digit
string is re-chunked into pairs by `/.{1,2}/g`, and each chunk is re-read
with `parseInt(chunk, 16)`. -/
def cleanedNumbers (buf : List ℕ) : List ℕ :=
  (chunks2 ((buf.take 20).map decDigits).flatten).map hexPairVal

/-- PM2.5 value the cleaned-bytes path computes (`(cleanedNumbers[3]*256 + cleanedNumbers[2])/10`). -/
def cleanedPM25 (buf : List ℕ) : ℚ :=
  (((cleanedNumbers buf).getD 3 0 : ℚ) * 256 + ((cleanedNumbers buf).getD 2 0 : ℚ)) / 10

/-- PM10 value the cleaned-bytes path computes (`(cleanedNumbers[5]*256 + cleanedNumbers[4])/10`). -/
def cleanedPM10 (buf : List ℕ) : ℚ :=
  (((cleanedNumbers buf).getD 5 0 : ℚ) * 256 + ((cleanedNumbers buf).getD 4 0 : ℚ)) / 10

/-- Acceptance condition of the cleaned-bytes (modified-format) path in
`useSensorData.ts`: exactly 10 cleaned bytes and both formula values in
`[0, 999]`. -/
def cleanedAccepts (buf : List ℕ) : Prop :=
  (cleanedNumbers buf).length = 10 ∧
    0 ≤ cleanedPM25 buf ∧ cleanedPM25 buf ≤ 999 ∧
    0 ≤ cleanedPM10 buf ∧ cleanedPM10 buf ≤ 999

instance (buf : List ℕ) : Decidable (cleanedAccepts buf) := by
  unfold cleanedAccepts
  infer_instance

/-- The standard-packet search loop of `useSensorData.ts`, fuel-indexed:
`for (let i = 0; i < dataBuffer.length - 10; i++)` looking for a window
starting with 0xAA whose byte 9 is 0xAB and whose 10-byte slice passes
`extractPMValues`; the first hit is returned. -/
def scanStandardFuel (buf : List ℕ) : ℕ → ℕ → Option (ℚ × ℚ)
  | 0, _ => none
  | fuel + 1, i =>
    if i + 10 < buf.length then
      if buf.getD i 0 = 0xAA ∧ buf.getD (i + 9) 0 = 0xAB then
        match extractPMValues ((buf.drop i).take 10) with
        | some v => some v
        | none => scanStandardFuel buf fuel (i + 1)
      else scanStandardFuel buf fuel (i + 1)
    else none

/-- The standard-packet scan started at index 0 (the loop runs at most
`buf.length` times, so that much fuel is exact). -/
def scanStandard (buf : List ℕ) : Option (ℚ × ℚ) :=
  scanStandardFuel buf buf.length 0

/-- The decode pipeline of the `useEffect` in `useSensorData.ts`, as a function
from the data buffer to the reading (and packet type tag) it reports:
buffers shorter than 10 bytes are skipped; then the cleaned-bytes path is
tried first (tagged `modified`); only if it fails is the buffer scanned for
standard packets (tagged `standard`). -/
def processDataBuffer (buf : List ℕ) : Option (ℚ × ℚ × PType) :=
  if buf.length < 10 then none
  else if cleanedAccepts buf then some (cleanedPM25 buf, cleanedPM10 buf, PType.modified)
  else
    match scanStandard buf with
    | some v => some (v.1, v.2, PType.standard)
    | none => none

/-- One entry of the reading window of `useSensorData.ts` (timestamp omitted):
PM2.5 and PM10. -/
abbrev ReadingPair := ℚ × ℚ

/-- JS `arr.slice(-n)`: the suffix of the last `n` elements (everything, if
the list is shorter). -/
def lastN {α : Type} (n : ℕ) (l : List α) : List α :=
  l.drop (l.length - n)

/-- JS `parseFloat(x.toFixed(1))`: round to one decimal place; ECMAScript
`toFixed` picks the larger candidate on ties, i.e. `⌊x·10 + 1/2⌋ / 10`. -/
def toFixed1 (q : ℚ) : ℚ :=
  ((⌊q * 10 + 1 / 2⌋ : ℤ) : ℚ) / 10

/-- The sensor-reading state of `useSensorData.ts` touched by `addReading`. -/
structure SensorState where
  pm25 : Option ℚ
  pm10 : Option ℚ
  readings : List ReadingPair
  avgPm25 : Option ℚ
  avgPm10 : Option ℚ
deriving Repr

/-- Initial hook state: no readings, all values `null`. -/
def sensorInit : SensorState :=
  { pm25 := none, pm10 := none, readings := [], avgPm25 := none, avgPm10 := none }

/-- `addReading` from `useSensorData.ts`: append the new reading, keep the
most recent 10 (`slice(-10)`), set current values, and recompute the averages
over the kept window, rounded to one decimal place. -/
def addReading (st : SensorState) (newPm25 newPm10 : ℚ) : SensorState :=
  let updatedReadings := lastN 10 (st.readings ++ [(newPm25, newPm10)])
  { pm25 := some newPm25,
    pm10 := some newPm10,
    readings := updatedReadings,
    avgPm25 := some (toFixed1 ((updatedReadings.map Prod.fst).sum / (updatedReadings.length : ℚ))),
    avgPm10 := some (toFixed1 ((updatedReadings.map Prod.snd).sum / (updatedReadings.length : ℚ))) }

/-- Push a whole sequence of readings through `addReading`, oldest first. -/
def runReadings (rs : List ReadingPair) : SensorState :=
  rs.foldl (fun st r => addReading st r.1 r.2) sensorInit

/-- Appending one element to an already-trimmed window and re-trimming is the
same as trimming the whole history: the `slice(-10)` window is a sliding
suffix. -/
lemma lastN_append_last {α : Type} (n : ℕ) (hn : 0 < n) (l : List α) (x : α) :
    lastN n (lastN n l ++ [x]) = lastN n (l ++ [x]) := by
  unfold lastN
  rcases le_or_lt l.length n with h | h
  · rw [Nat.sub_eq_zero_of_le h, List.drop_zero]
  · have hdl : (l.drop (l.length - n)).length = n := by
      rw [List.length_drop]
      omega
    rw [List.length_append, hdl, List.length_append]
    have h1 : n + [x].length - n = 1 := by simp
    have h2 : l.length + [x].length - n = (l.length - n) + 1 := by
      simp
      omega
    rw [h1, h2]
    rw [List.drop_append_of_le_length (by omega : 1 ≤ (l.drop (l.length - n)).length),
        List.drop_append_of_le_length (by omega : (l.length - n) + 1 ≤ l.length)]
    rw [List.drop_drop]

/-- Length of the `slice(-n)` suffix. -/
lemma lastN_length {α : Type} (n : ℕ) (l : List α) :
    (lastN n l).length = min l.length n := by
  rw [lastN, List.length_drop]
  omega

/-- Running the aggregator on `rs ++ [r]` is running it on `rs` and adding `r`. -/
lemma runReadings_concat (rs : List ReadingPair) (r : ReadingPair) :
    runReadings (rs ++ [r]) = addReading (runReadings rs) r.1 r.2 := by
  simp [runReadings, List.foldl_append]

/-- Invariant: after any push sequence the window is exactly the last-10 suffix
of everything pushed. -/
lemma runReadings_window (rs : List ReadingPair) :
    (runReadings rs).readings = lastN 10 rs := by
  induction rs using List.reverseRecOn with
  | nil => rfl
  | append_singleton l x ih =>
    rw [runReadings_concat]
    show lastN 10 ((runReadings l).readings ++ [(x.1, x.2)]) = lastN 10 (l ++ [x])
    rw [ih, show ((x.1, x.2) : ReadingPair) = x from rfl]
    exact lastN_append_last 10 (by norm_num) l x

/-- C5: for every sequence of pushed readings, the reading window holds at most
10 entries, evicting oldest-first (it is exactly the suffix of the last 10
pushed readings), and the reported averages equal the arithmetic mean of pm25
and of pm10 over the last 10 pushed values, rounded to one decimal place. -/
theorem readingWindow_bound_and_average (rs : List ReadingPair) (hne : rs ≠ []) :
    (runReadings rs).readings = lastN 10 rs ∧
    (runReadings rs).readings.length = min rs.length 10 ∧
    (runReadings rs).avgPm25 =
      some (toFixed1 (((lastN 10 rs).map Prod.fst).sum / ((lastN 10 rs).length : ℚ))) ∧
    (runReadings rs).avgPm10 =
      some (toFixed1 (((lastN 10 rs).map Prod.snd).sum / ((lastN 10 rs).length : ℚ))) := by
  induction rs using List.reverseRecOn with
  | nil => exact absurd rfl hne
  | append_singleton l x _ =>
    have key : lastN 10 ((runReadings l).readings ++ [(x.1, x.2)]) = lastN 10 (l ++ [x]) := by
      rw [runReadings_window l, show ((x.1, x.2) : ReadingPair) = x from rfl]
      exact lastN_append_last 10 (by norm_num) l x
    refine ⟨runReadings_window _, ?_, ?_, ?_⟩
    · rw [runReadings_window, lastN_length]
    · rw [runReadings_concat]
      show some (toFixed1 (((lastN 10 ((runReadings l).readings ++ [(x.1, x.2)])).map Prod.fst).sum /
          ((lastN 10 ((runReadings l).readings ++ [(x.1, x.2)])).length : ℚ))) = _
      rw [key]
    · rw [runReadings_concat]
      show some (toFixed1 (((lastN 10 ((runReadings l).readings ++ [(x.1, x.2)])).map Prod.snd).sum /
          ((lastN 10 ((runReadings l).readings ++ [(x.1, x.2)])).length : ℚ))) = _
      rw [key]

/-- Fifteen sequential readings `(0,0), (1,1), ..., (14,14)`. -/
def rs15 : List ReadingPair :=
  [(0, 0), (1, 1), (2, 2), (3, 3), (4, 4), (5, 5), (6, 6), (7, 7),
   (8, 8), (9, 9), (10, 10), (11, 11), (12, 12), (13, 13), (14, 14)]

/-- Witness for C5: after pushing 15 sequential readings exactly 10 remain and
both averages are (5 + 6 + ... + 14)/10 = 9.5. -/
theorem readingWindow_bound_and_average_witness :
    (runReadings rs15).readings.length = 10 ∧
    (runReadings rs15).avgPm25 = some (19 / 2) ∧
    (runReadings rs15).avgPm10 = some (19 / 2) := by
  have h := readingWindow_bound_and_average rs15 (by decide)
  refine ⟨?_, ?_, ?_⟩
  · rw [h.2.1]
    decide
  · rw [h.2.2.1]
    norm_num [rs15, lastN, toFixed1]
  · rw [h.2.2.2]
    norm_num [rs15, lastN, toFixed1]

/-- If no index with a full window below the loop bound carries a valid
standard frame, the scan returns nothing, whatever the fuel and start. -/
lemma scanStandardFuel_eq_none (buf : List ℕ)
    (h : ∀ i, i + 10 < buf.length → ¬(buf.getD i 0 = 0xAA ∧ buf.getD (i + 9) 0 = 0xAB ∧
          extractPMValues ((buf.drop i).take 10) ≠ none)) :
    ∀ fuel j, scanStandardFuel buf fuel j = none := by
  intro fuel
  induction fuel with
  | zero => intro j; rfl
  | succ f ih =>
    intro j
    simp only [scanStandardFuel]
    by_cases hj : j + 10 < buf.length
    · rw [if_pos hj]
      by_cases hhdr : buf.getD j 0 = 0xAA ∧ buf.getD (j + 9) 0 = 0xAB
      · rw [if_pos hhdr]
        have hex : extractPMValues ((buf.drop j).take 10) = none := by
          by_contra hne
          exact h j hj ⟨hhdr.1, hhdr.2, hne⟩
        rw [hex]
        exact ih (j + 1)
      · rw [if_neg hhdr]
        exact ih (j + 1)
    · rw [if_neg hj]

/-- If some index not yet passed carries a valid standard frame inside the
loop bound, the scan (with enough fuel) finds a hit. -/
lemma scanStandardFuel_isSome (buf : List ℕ) (i : ℕ) (hi : i + 10 < buf.length)
    (hhdr : buf.getD i 0 = 0xAA) (htrl : buf.getD (i + 9) 0 = 0xAB)
    (hex : extractPMValues ((buf.drop i).take 10) ≠ none) :
    ∀ fuel j, j ≤ i → buf.length ≤ fuel + j → (scanStandardFuel buf fuel j).isSome := by
  intro fuel
  induction fuel with
  | zero =>
    intro j hji hlen
    exfalso
    omega
  | succ f ih =>
    intro j hji hlen
    simp only [scanStandardFuel]
    have hjlt : j + 10 < buf.length := by omega
    rw [if_pos hjlt]
    by_cases hj : buf.getD j 0 = 0xAA ∧ buf.getD (j + 9) 0 = 0xAB
    · rw [if_pos hj]
      rcases heq : extractPMValues ((buf.drop j).take 10) with _ | v
      · by_cases hji2 : j = i
        · subst hji2
          exact absurd heq hex
        · exact ih (j + 1) (by omega) (by omega)
      · rfl
    · rw [if_neg hj]
      have hne : j ≠ i := by
        intro e
        subst e
        exact hj ⟨hhdr, htrl⟩
      exact ih (j + 1) (by omega) (by omega)

/-- C10: the standard-frame scan only examines start indices `i` with
`i + 10 < bufferLength`, so for every buffer whose only valid standard frame
begins at index `bufferLength - 10` (the hypothesis says every index the loop
can visit is invalid) the scan finds nothing and the pipeline never reports a
standard reading. -/
theorem scan_misses_trailing_frame (buf : List ℕ)
    (h : ∀ i, i + 10 < buf.length → ¬(buf.getD i 0 = 0xAA ∧ buf.getD (i + 9) 0 = 0xAB ∧
          extractPMValues ((buf.drop i).take 10) ≠ none)) :
    scanStandard buf = none ∧
    (processDataBuffer buf).map (fun r => r.2.2) ≠ some PType.standard := by
  have hscan : scanStandard buf = none := scanStandardFuel_eq_none buf h buf.length 0
  refine ⟨hscan, ?_⟩
  simp only [processDataBuffer]
  by_cases h10 : buf.length < 10
  · rw [if_pos h10]
    simp
  · rw [if_neg h10]
    by_cases hacc : cleanedAccepts buf
    · rw [if_pos hacc]
      simp
    · rw [if_neg hacc, hscan]
      simp

/-- Witness for C10: a buffer that is exactly one valid 10-byte standard frame
is never decoded as a standard reading by the hook pipeline. -/
theorem scan_misses_trailing_frame_witness :
    scanStandard [0xAA, 0x00, 0x2C, 0x01, 0x64, 0x00, 0x00, 0x00, 0x00, 0xAB] = none ∧
    (processDataBuffer [0xAA, 0x00, 0x2C, 0x01, 0x64, 0x00, 0x00, 0x00, 0x00, 0xAB]).map
      (fun r => r.2.2) ≠ some PType.standard :=
  scan_misses_trailing_frame _ (fun i hi => absurd hi (by
    rw [show ([0xAA, 0x00, 0x2C, 0x01, 0x64, 0x00, 0x00, 0x00, 0x00, 0xAB] : List ℕ).length = 10
      from rfl]
    omega))

/-- On a 20-byte buffer whose bytes 2 and 4 are at most 999, the modified
extractor returns those bytes directly (its first hypothesis). -/
lemma extractPMValuesFromModifiedFormat_direct (b : List ℕ) (hlen : b.length = 20)
    (h2 : b.getD 2 0 ≤ 999) (h4 : b.getD 4 0 ≤ 999) :
    extractPMValuesFromModifiedFormat b = some ((b.getD 2 0 : ℚ), (b.getD 4 0 : ℚ)) := by
  have hc1 : 0 ≤ (b.getD 2 0 : ℚ) ∧ (b.getD 2 0 : ℚ) ≤ 999 ∧
      0 ≤ (b.getD 4 0 : ℚ) ∧ (b.getD 4 0 : ℚ) ≤ 999 :=
    ⟨by positivity, by exact_mod_cast h2, by positivity, by exact_mod_cast h4⟩
  simp only [extractPMValuesFromModifiedFormat]
  rw [if_pos hlen, if_pos hc1]

/-- A 50-byte buffer: 20 bytes of junk whose cleaned form passes the
cleaned-bytes path, then a valid standard frame at offset 20, then a
valid-looking 20-byte modified frame at offset 30. -/
def c3buf : List ℕ :=
  [0, 1, 0, 2, 0, 3, 0, 4, 0, 5, 0, 0, 0, 0, 0, 0, 0, 0, 0, 0,
   0xAA, 0x00, 0x2C, 0x01, 0x64, 0x00, 0x00, 0x00, 0x00, 0xAB,
   0x0A, 0x0A, 0, 0, 0, 0, 0, 0, 0, 0, 0, 0, 0, 0, 0, 0, 0, 0, 0x0A, 0x0B]

/-- C3 counterexample: `c3buf` contains a valid standard frame (at offset 20,
decoding to 30.0/10.0) and a valid-looking modified frame (at offset 30, with
both marker pairs), yet the pipeline returns the cleaned-bytes reading tagged
`modified`, not the standard-frame reading: the cleaned path runs first. -/
theorem pipeline_prefers_cleaned_counterexample :
    (c3buf.drop 20).take 10 = [0xAA, 0x00, 0x2C, 0x01, 0x64, 0x00, 0x00, 0x00, 0x00, 0xAB] ∧
    extractPMValues ((c3buf.drop 20).take 10) = some (30, 10) ∧
    20 + 10 < c3buf.length ∧
    c3buf.drop 30 = [0x0A, 0x0A, 0, 0, 0, 0, 0, 0, 0, 0, 0, 0, 0, 0, 0, 0, 0, 0, 0x0A, 0x0B] ∧
    extractPMValuesFromModifiedFormat (c3buf.drop 30) = some (0, 0) ∧
    processDataBuffer c3buf = some (1027 / 10, 1 / 2, PType.modified) := by
  have hcn : cleanedNumbers c3buf = [1, 2, 3, 4, 5, 0, 0, 0, 0, 0] := by rfl
  have h25 : cleanedPM25 c3buf = 1027 / 10 := by
    simp only [cleanedPM25, hcn]
    norm_num
  have h10q : cleanedPM10 c3buf = 1 / 2 := by
    simp only [cleanedPM10, hcn]
    norm_num
  have hacc : cleanedAccepts c3buf :=
    ⟨by decide, by rw [h25]; norm_num, by rw [h25]; norm_num,
     by rw [h10q]; norm_num, by rw [h10q]; norm_num⟩
  refine ⟨rfl, ?_, by decide, rfl, ?_, ?_⟩
  · rw [show (c3buf.drop 20).take 10 =
        [0xAA, 0x00, 0x2C, 0x01, 0x64, 0x00, 0x00, 0x00, 0x00, 0xAB] from rfl,
      extractPMValues_std]
    norm_num
  · rw [show c3buf.drop 30 =
        [0x0A, 0x0A, 0, 0, 0, 0, 0, 0, 0, 0, 0, 0, 0, 0, 0, 0, 0, 0, 0x0A, 0x0B] from rfl]
    rw [extractPMValuesFromModifiedFormat_direct _ (by decide) (by decide) (by decide)]
    norm_num
  · simp only [processDataBuffer]
    rw [if_neg (by decide : ¬ c3buf.length < 10), if_pos hacc, h25, h10q]

/-- C3 (amended): the pipeline tries the cleaned-bytes (modified) path on the
first 20 bytes first; only when that path fails does the standard scan run, and
then any valid standard frame at an index the loop examines makes the pipeline
return a standard-tagged reading. -/
theorem pipeline_standard_after_cleaned_fails (buf : List ℕ) (hlen : 10 ≤ buf.length)
    (hclean : ¬ cleanedAccepts buf) (i : ℕ) (hi : i + 10 < buf.length)
    (hhdr : buf.getD i 0 = 0xAA) (htrl : buf.getD (i + 9) 0 = 0xAB)
    (hex : extractPMValues ((buf.drop i).take 10) ≠ none) :
    (processDataBuffer buf).map (fun r => r.2.2) = some PType.standard := by
  have hsome : (scanStandard buf).isSome :=
    scanStandardFuel_isSome buf i hi hhdr htrl hex buf.length 0 (by omega) (by omega)
  simp only [processDataBuffer]
  rw [if_neg (by omega : ¬ buf.length < 10), if_neg hclean]
  rcases hv : scanStandard buf with _ | v
  · rw [hv] at hsome
    simp at hsome
  · rfl

/-- Witness for C3 (amended): a valid standard frame followed by one extra byte
fails the cleaned path and is decoded as a standard reading. -/
theorem pipeline_standard_after_cleaned_fails_witness :
    (processDataBuffer
      [0xAA, 0x00, 0x2C, 0x01, 0x64, 0x00, 0x00, 0x00, 0x00, 0xAB, 0x00]).map
      (fun r => r.2.2) = some PType.standard := by
  have hval : extractPMValues [0xAA, 0x00, 0x2C, 0x01, 0x64, 0x00, 0x00, 0x00, 0x00, 0xAB] =
      some (30, 10) := by
    rw [extractPMValues_std]
    norm_num
  refine pipeline_standard_after_cleaned_fails
    [0xAA, 0x00, 0x2C, 0x01, 0x64, 0x00, 0x00, 0x00, 0x00, 0xAB, 0x00]
    (by decide) (fun h => absurd h.1 (by decide)) 0 (by decide) (by decide) (by decide) ?_
  rw [show (([0xAA, 0x00, 0x2C, 0x01, 0x64, 0x00, 0x00, 0x00, 0x00, 0xAB, 0x00] :
        List ℕ).drop 0).take 10 =
      [0xAA, 0x00, 0x2C, 0x01, 0x64, 0x00, 0x00, 0x00, 0x00, 0xAB] from rfl, hval]
  simp

/-- The `onReceived` handler of `connectDevice` in `src/hooks/useUsbSerial.ts`:
received bytes are appended to the data buffer
(`setDataBuffer(prev => [...prev, ...newData])`); the handler never trims. -/
def onReceivedAppend (buffer chunk : List ℕ) : List ℕ :=
  buffer ++ chunk

/-- `clearBuffer` from `src/hooks/useUsbSerial.ts`: `setDataBuffer([])`. -/
def clearBuffer : List ℕ :=
  []

/-- The accumulated data buffer after a sequence of received chunks with no
successful decode (no `clearBuffer` call) in between. -/
def receiveRun (chunks : List (List ℕ)) : List ℕ :=
  chunks.foldl onReceivedAppend []

/-- Folding the append-only receive handler concatenates all chunks. -/
lemma receiveRun_flatten_aux (chunks : List (List ℕ)) (acc : List ℕ) :
    chunks.foldl onReceivedAppend acc = acc ++ chunks.flatten := by
  induction chunks generalizing acc with
  | nil => simp [onReceivedAppend]
  | cons c cs ih =>
    simp [onReceivedAppend, List.foldl_cons, ih]

set_option maxRecDepth 8192 in
/-- C6 counterexample: after 15 chunks of 10 bytes with no successful decode
the buffer holds all 150 bytes, which exceeds the claimed ceiling of 100
(10 x the 10-byte frame size) and is not trimmed to the final 10 bytes. -/
theorem receive_never_trims_counterexample :
    (receiveRun (List.replicate 15 (List.replicate 10 0))).length = 150 ∧
    100 < (receiveRun (List.replicate 15 (List.replicate 10 0))).length ∧
    receiveRun (List.replicate 15 (List.replicate 10 0)) ≠
      lastN 10 (receiveRun (List.replicate 15 (List.replicate 10 0))) := by
  decide

/-- C6 (amended): the receive path never trims: after any chunk sequence
without a successful decode the buffer is the concatenation of every received
byte (its length is the total received, unbounded); only `clearBuffer`
(invoked after a successful decode) resets it, to empty. -/
theorem receive_buffer_unbounded (chunks : List (List ℕ)) :
    receiveRun chunks = chunks.flatten ∧
    (receiveRun chunks).length = (chunks.map List.length).sum ∧
    clearBuffer = ([] : List ℕ) := by
  have h : receiveRun chunks = chunks.flatten := by
    simpa [receiveRun] using receiveRun_flatten_aux chunks []
  refine ⟨h, ?_, rfl⟩
  rw [h]
  simp

/-- The connection-manager state touched by `checkConnectionStatus` and
`handleDeviceDisconnection` in `src/hooks/useUsbSerial.ts`. `serialport` is
whether a transport handle is held, `closeCalls` instruments how often
`serialport.close()` has been invoked, `reconnectScheduled` whether a
reconnect timer is armed. -/
structure ConnState where
  connected : Bool
  serialport : Bool
  errCount : ℕ
  closeCalls : ℕ
  checkIntervalActive : Bool
  subscriptionActive : Bool
  reconnectScheduled : Bool
  autoConnect : Bool
deriving DecidableEq, Repr

/-- `handleDeviceDisconnection` from `src/hooks/useUsbSerial.ts`: clear the
check interval and subscription, close the port (once, only if held), null the
handle, leave Connected, reset the error counter, and for non-physical
disconnects with auto-connect schedule a delayed reconnect. -/
def handleDeviceDisconnection (isPhysicalDetachment : Bool) (s : ConnState) : ConnState :=
  let s1 : ConnState := { s with checkIntervalActive := false, subscriptionActive := false }
  let s2 : ConnState := if s1.serialport then { s1 with closeCalls := s1.closeCalls + 1 } else s1
  let s3 : ConnState := { s2 with serialport := false, connected := false, errCount := 0 }
  if s3.autoConnect = true ∧ isPhysicalDetachment = false then
    { s3 with reconnectScheduled := true }
  else s3

/-- `checkConnectionStatus` from `src/hooks/useUsbSerial.ts`, as a function of
the probe outcome: does nothing unless connected with a handle; probes only
when stale (no data for 15s) or errors are pending; a successful probe resets
the error counter; a failed probe increments it and at 2 consecutive failures
tears the connection down. -/
def checkConnectionStatus (isStale probeOk : Bool) (s : ConnState) : ConnState :=
  if s.connected = false ∨ s.serialport = false then s
  else if isStale = true ∨ 0 < s.errCount then
    if probeOk = true then
      if 0 < s.errCount then { s with errCount := 0 } else s
    else
      let s' : ConnState := { s with errCount := s.errCount + 1 }
      if 2 ≤ s'.errCount then handleDeviceDisconnection false s' else s'
  else s

/-- C7: from a Connected state with a handle and no pending errors, a first
failed liveness check leaves the state Connected with one recorded error and
closes nothing; the second consecutive failure leaves Connected, closes the
transport handle exactly once, and arms the reconnect path; any further
liveness check closes nothing more (no double-close). -/
theorem liveness_two_failures (s : ConnState) (b : Bool)
    (hc : s.connected = true) (hp : s.serialport = true)
    (he : s.errCount = 0) (ha : s.autoConnect = true) :
    (checkConnectionStatus true false s).connected = true ∧
    (checkConnectionStatus true false s).errCount = 1 ∧
    (checkConnectionStatus true false s).closeCalls = s.closeCalls ∧
    (checkConnectionStatus b false (checkConnectionStatus true false s)).connected = false ∧
    (checkConnectionStatus b false (checkConnectionStatus true false s)).closeCalls =
      s.closeCalls + 1 ∧
    (checkConnectionStatus b false (checkConnectionStatus true false s)).reconnectScheduled =
      true ∧
    (checkConnectionStatus false false
      (checkConnectionStatus b false (checkConnectionStatus true false s))).closeCalls =
      s.closeCalls + 1 ∧
    (checkConnectionStatus false true
      (checkConnectionStatus b false (checkConnectionStatus true false s))).closeCalls =
      s.closeCalls + 1 ∧
    (checkConnectionStatus true false
      (checkConnectionStatus b false (checkConnectionStatus true false s))).closeCalls =
      s.closeCalls + 1 ∧
    (checkConnectionStatus true true
      (checkConnectionStatus b false (checkConnectionStatus true false s))).closeCalls =
      s.closeCalls + 1 := by
  simp [checkConnectionStatus, handleDeviceDisconnection, hc, hp, he, ha]

/-- A freshly connected session (the state right after `connectDevice`
succeeds): handle held, no errors, timers armed, auto-connect on. -/
def connInit : ConnState :=
  { connected := true, serialport := true, errCount := 0, closeCalls := 0,
    checkIntervalActive := true, subscriptionActive := true,
    reconnectScheduled := false, autoConnect := true }

/-- Witness for C7 at the freshly connected state. -/
theorem liveness_two_failures_witness :
    (checkConnectionStatus true false connInit).connected = true ∧
    (checkConnectionStatus true false connInit).errCount = 1 ∧
    (checkConnectionStatus true false connInit).closeCalls = connInit.closeCalls ∧
    (checkConnectionStatus true false (checkConnectionStatus true false connInit)).connected =
      false ∧
    (checkConnectionStatus true false (checkConnectionStatus true false connInit)).closeCalls =
      connInit.closeCalls + 1 ∧
    (checkConnectionStatus true false
        (checkConnectionStatus true false connInit)).reconnectScheduled = true ∧
    (checkConnectionStatus false false
      (checkConnectionStatus true false (checkConnectionStatus true false connInit))).closeCalls =
      connInit.closeCalls + 1 ∧
    (checkConnectionStatus false true
      (checkConnectionStatus true false (checkConnectionStatus true false connInit))).closeCalls =
      connInit.closeCalls + 1 ∧
    (checkConnectionStatus true false
      (checkConnectionStatus true false (checkConnectionStatus true false connInit))).closeCalls =
      connInit.closeCalls + 1 ∧
    (checkConnectionStatus true true
      (checkConnectionStatus true false (checkConnectionStatus true false connInit))).closeCalls =
      connInit.closeCalls + 1 :=
  liveness_two_failures connInit true rfl rfl rfl rfl

/-- State for the attach-event simulation of `handleDeviceAttached` in
`src/hooks/useUsbSerial.ts`: the pending 1.5s debounced-refresh timer, the
pending reconnect timer (only ever cancelled here), the last attach time, and
the log of device-list refreshes as (time, fired-by-timer?) pairs. -/
structure AttachSimState where
  pendingRefreshAt : Option ℕ
  reconnectAt : Option ℕ
  lastAttachTime : ℕ
  refreshes : List (ℕ × Bool)
deriving DecidableEq, Repr

/-- Fire the pending debounced refresh if it is due by `upTo` (the timer
callback calls `forceDeviceListRefresh`, logged with the timer flag). -/
def fireDue (upTo : ℕ) (s : AttachSimState) : AttachSimState :=
  match s.pendingRefreshAt with
  | some t =>
    if t ≤ upTo then
      { s with pendingRefreshAt := none, refreshes := s.refreshes ++ [(t, true)] }
    else s
  | none => s

/-- `handleDeviceAttached` from `src/hooks/useUsbSerial.ts` at time `t`:
record the attachment time, cancel any reconnect timer and any pending
reattach-delay timer, refresh the device list immediately, and schedule
another refresh 1.5 seconds later. -/
def handleDeviceAttached (t : ℕ) (s : AttachSimState) : AttachSimState :=
  { s with lastAttachTime := t,
           reconnectAt := none,
           pendingRefreshAt := some (t + 1500),
           refreshes := s.refreshes ++ [(t, false)] }

/-- Run a sorted list of attach-event times, firing a due debounce timer
before each event and once more up to the horizon. -/
def runAttachEvents : List ℕ → ℕ → AttachSimState → AttachSimState
  | [], horizon, s => fireDue horizon s
  | t :: rest, horizon, s => runAttachEvents rest horizon (handleDeviceAttached t (fireDue t s))

/-- Initial simulation state: no timers pending, nothing logged. -/
def attachInit : AttachSimState :=
  { pendingRefreshAt := none, reconnectAt := none, lastAttachTime := 0, refreshes := [] }

/-- C8 counterexample: two attach events at t=0 and t=200 (200ms apart)
trigger two device-list refreshes inside the first 1.5-second window (the
immediate refresh of each event), not at most one; the debounced refresh of
the first event is cancelled and only the second one fires, at t=1700. -/
theorem attach_debounce_counterexample :
    (runAttachEvents [0, 200] 10000 attachInit).refreshes =
      [(0, false), (200, false), (1700, true)] ∧
    ((runAttachEvents [0, 200] 10000 attachInit).refreshes.filter
      (fun r => decide (r.1 < 1500))).length = 2 := by
  decide

/-- C8 (amended): each attach event triggers an immediate refresh, so two
events produce two immediate refreshes inside the first 1.5s window; but the
second event cancels the first event debounced refresh rather than adding a
second one: exactly one timer-fired refresh happens, at t2 + 1500, outside
the first event 1.5s window. -/
theorem attach_debounce_amended (t1 t2 horizon : ℕ)
    (h12 : t1 < t2) (hwin : t2 < t1 + 1500) (hh : t2 + 1500 ≤ horizon) :
    (runAttachEvents [t1, t2] horizon attachInit).refreshes =
      [(t1, false), (t2, false), (t2 + 1500, true)] ∧
    ((runAttachEvents [t1, t2] horizon attachInit).refreshes.filter
      (fun r => r.2)).length = 1 ∧
    ((runAttachEvents [t1, t2] horizon attachInit).refreshes.filter
      (fun r => r.2 && decide (r.1 < t1 + 1500))).length = 0 := by
  have hrun : runAttachEvents [t1, t2] horizon attachInit =
      fireDue horizon (handleDeviceAttached t2 (fireDue t2 (handleDeviceAttached t1
        (fireDue t1 attachInit)))) := rfl
  have hfire1 : fireDue t1 attachInit = attachInit := rfl
  have hfire2 : fireDue t2 (handleDeviceAttached t1 attachInit) =
      handleDeviceAttached t1 attachInit := by
    simp only [fireDue, handleDeviceAttached]
    rw [if_neg (by omega : ¬ t1 + 1500 ≤ t2)]
  have hfinal : runAttachEvents [t1, t2] horizon attachInit =
      { pendingRefreshAt := none, reconnectAt := none, lastAttachTime := t2,
        refreshes := [(t1, false), (t2, false), (t2 + 1500, true)] } := by
    rw [hrun, hfire1, hfire2]
    simp only [fireDue, handleDeviceAttached]
    rw [if_pos hh]
    rfl
  rw [hfinal]
  refine ⟨rfl, rfl, ?_⟩
  have hdec : decide (t2 < t1) = false := by
    simp
    omega
  simp [List.filter, hdec]

/-- Witness for C8 (amended) at attach times 100 and 300 with horizon 5000. -/
theorem attach_debounce_amended_witness :
    (runAttachEvents [100, 300] 5000 attachInit).refreshes =
      [(100, false), (300, false), (300 + 1500, true)] ∧
    ((runAttachEvents [100, 300] 5000 attachInit).refreshes.filter
      (fun r => r.2)).length = 1 ∧
    ((runAttachEvents [100, 300] 5000 attachInit).refreshes.filter
      (fun r => r.2 && decide (r.1 < 100 + 1500))).length = 0 :=
  attach_debounce_amended 100 300 5000 (by decide) (by decide) (by decide)
